/-
Verification development for the `sqlalchemy-utils` extract consisting of
`sqlalchemy_utils/json_api.py` (a JSON:API document compiler) and
`sqlalchemy_utils/types/pg_composite.py` (a PostgreSQL composite column type
subsystem).  The Python sources are shallowly embedded: Python dicts become
insertion-ordered association lists with last-binding lookup, Python string
operations (`str.split`, `str.flatten`, `%`/`format` interpolation) become
executable Lean string functions, exception raising becomes `Except`, and the
SQL/JSON expression trees built by the compiler become an inductive syntax
with a small evaluation semantics for the document-level facts we prove.
-/
import Mathlib

set_option maxHeartbeats 1000000
set_option maxRecDepth 4000

namespace SqlAlchemyUtils

/-! ## Python dictionaries

A Python `dict` is modelled as an insertion-ordered association list.  Lookup
returns the *last* binding of a key, which makes the model also faithful to
`dict(generator)` comprehensions over sequences with repeated keys (later
items overwrite earlier ones). -/

/-- Lookup in an association list, returning the value of the *last* binding
of the key (Python `d[k]` after building `d` from the listed pairs). -/
def dget {α β : Type} [DecidableEq α] : List (α × β) → α → Option β
  | [], _ => none
  | p :: rest, k =>
    match dget rest k with
    | some v => some v
    | none => if p.1 = k then some p.2 else none

/-- The key list of a dict (Python `d.keys()`). -/
def dkeys {α β : Type} (d : List (α × β)) : List α := d.map Prod.fst

/-- Python `str.flatten`: `pyJoin sep [a, b, c] = a ++ sep ++ b ++ sep ++ c`. -/
def pyJoin (sep : String) : List String → String
  | [] => ""
  | [x] => x
  | x :: xs => x ++ sep ++ pyJoin sep xs

/-- Character-level model of Python `str.split('.')`: split a character list
at every dot.  The result is always non-empty; splitting the empty string
yields one empty segment, exactly as in Python. -/
def splitDots : List Char → List (List Char)
  | [] => [[]]
  | c :: rest =>
    if c = '.' then [] :: splitDots rest
    else
      match splitDots rest with
      | seg :: segs => (c :: seg) :: segs
      | [] => [[c]]

/-- Character-level model of `'.'.flatten`: interleave a dot between segments. -/
def joinDots : List (List Char) → List Char
  | [] => []
  | [x] => x
  | x :: xs => x ++ '.' :: joinDots xs

/-- Python `path.split('.')` on strings. -/
def pySplit (s : String) : List String :=
  (splitDots s.data).map String.mk

end SqlAlchemyUtils

namespace PgComposite

open SqlAlchemyUtils

/-- The Python class of a column type's `python_type` attribute, as far as the
`issubclass(..., (list, tuple))` test in `CompositeArray._proc_array` can
distinguish it.  `CompositeType.python_type` is `tuple`. -/
inductive PyTypeTag where
  | tupleT
  | listT
  | otherT
deriving DecidableEq

/-- A SQLAlchemy column type as seen by this module: the SQL name the dialect
type compiler renders for it, its `python_type` class, and, when the type is a
`TypeDecorator`, its bind-side conversion `process_bind_param`. -/
structure PGType where
  sqlName : String
  pythonType : PyTypeTag
  processBindParam : Option (String → String)

/-- A `sa.Column(name, type)` member of a composite type declaration. -/
structure PGColumn where
  name : String
  type : PGType

/-- The embedded `CompositeType`: its name, its ordered column list and the
driver-side type handle `type_cls`, an attribute that is *absent* (`none`)
until `register_psycopg2_composite` sets it or `__init__` copies it from an
already-registered instance.  The handle is modelled by the registered name. -/
structure CompositeType where
  name : String
  columns : List PGColumn
  type_cls : Option String

/-- The process-wide `registered_composites` registry, keyed by type name. -/
abbrev Registry := List (String × CompositeType)

/-- The Python-level error outcomes of the composite subsystem. -/
inductive PcError where
  | attributeError (msg : String)
deriving DecidableEq

/-- `CompositeType.__init__(name, columns)` acting on the process-wide
registry: a fresh name registers the new instance; an already-registered name
leaves the registry untouched and copies the *existing* instance's `type_cls`
attribute onto the new instance — an attribute access that raises
`AttributeError` whenever the existing instance has not been
driver-registered yet. -/
def CompositeType.init (name : String) (columns : List PGColumn)
    (reg : Registry) : Except PcError (CompositeType × Registry) :=
  match dget reg name with
  | some existing =>
    match existing.type_cls with
    | some h => .ok (⟨name, columns, some h⟩, reg)
    | none => .error (.attributeError "CompositeType object has no attribute type_cls")
  | none =>
    let self : CompositeType := ⟨name, columns, none⟩
    .ok (self, reg ++ [(name, self)])

/-- Modelled from the spec: the comparator looks field names up in
`self.type.typemap`, the map from each declared field name to its declared
type; the assignment of `typemap` itself is missing from the provided source
(`CompositeType.__init__` never sets it), so it is reconstructed from the
spec's description of sub-field access over the declared field list. -/
def CompositeType.typemap (ct : CompositeType) : List (String × PGType) :=
  ct.columns.map (fun c => (c.name, c.type))

/-- A `CompositeElement`: wraps a composite-typed expression (`base` is the
compiled SQL of the wrapped clauses), the accessed field and its type. -/
structure CompositeElement where
  base : String
  fieldName : String
  type : PGType

/-- `_compile_pgelem`: a `CompositeElement` compiles to the row-field
extraction syntax `(<row-expr>).<field>`. -/
def compile_pgelem (e : CompositeElement) : String :=
  "(" ++ e.base ++ ")." ++ e.fieldName

/-- Outcome of an attribute access on the comparator: a successful
`CompositeElement`, a `KeyError` with its message, or Python's
`RecursionError` when `__getattr__` re-enters itself without bound. -/
inductive GetattrResult where
  | ok (e : CompositeElement)
  | keyError (msg : String)
  | recursionError

/-- `comparator_factory.__getattr__(self, key)`.  The comparator object owns
only the attributes `expr` and `type` (set by the SQLAlchemy base class), so
any other attribute access is routed back into `__getattr__`.  On a declared
field the typemap lookup succeeds and a `CompositeElement` is returned.  On an
undeclared field the `except KeyError` handler interpolates `self.name` into
the message — the comparator has no `name` attribute, so this access re-enters
`__getattr__('name')`, which (unless `name` is itself a declared field) fails
again and re-enters once more, without bound.  The `Nat` argument is the
recursion budget standing in for Python's recursion limit. -/
def comparatorGetattr (ct : CompositeType) (exprSql : String) :
    Nat → String → GetattrResult
  | 0, key =>
    match dget ct.typemap key with
    | some ty => .ok ⟨exprSql, key, ty⟩
    | none => .recursionError
  | fuel + 1, key =>
    match dget ct.typemap key with
    | some ty => .ok ⟨exprSql, key, ty⟩
    | none =>
      match comparatorGetattr ct exprSql fuel "name" with
      | .ok e =>
        .keyError ("Type " ++ compile_pgelem e ++ " does not have an attribute: " ++ key)
      | r => r

/-- External boundary (the plain `ARRAY` type this module extends): the base
array result decoding applies the item processor to every element of a
(one-dimensional) array value and returns the rebuilt collection. -/
def ARRAY_proc_array (itemproc : String → String) (_dim : Option Nat)
    (arr : List String) : List String :=
  arr.map itemproc

/-- `CompositeArray._proc_array`: when `dim is None` and the item type's
`python_type` is a `list`/`tuple` subclass, the raw value is returned
unchanged; otherwise the base class decoding is *invoked but its result is
dropped*, and the method falls off its end returning Python `None`
(modelled as `none`). -/
def CompositeArray_proc_array (item_type : PGType) (itemproc : String → String)
    (dim : Option Nat) (arr : List String) : Option (List String) :=
  if dim = none ∧ (item_type.pythonType = .tupleT ∨ item_type.pythonType = .listT) then
    some arr
  else
    let _ := ARRAY_proc_array itemproc dim arr
    none

/-- What decoding through the plain array type produces on the same value
(the claim's reference behaviour for the non-skip case). -/
def plainArrayDecode (itemproc : String → String) (dim : Option Nat)
    (arr : List String) : Option (List String) :=
  some (ARRAY_proc_array itemproc dim arr)

/-- `psycopg2`'s generic `getattr` on a composite value: the value carries one
attribute per declared field. -/
def pygetattr (value : List (String × String)) (name : String) : String :=
  (dget value name).getD ""

/-- The `adapt_composite` encoder installed by `register_psycopg2_composite`:
each field's raw attribute value is passed to the driver's generic `adapt`
(quoting) function and the quoted literals are joined as
`(v1, v2, ...)::<type-name>`.  Note that the declared column *types* are never
consulted. -/
def adapt_composite (adaptQuoted : String → String) (composite : CompositeType)
    (value : List (String × String)) : String :=
  let values := composite.columns.map (fun c => adaptQuoted (pygetattr value c.name))
  "(" ++ pyJoin ", " values ++ ")::" ++ composite.name

/-- The encoder the specification describes: each field's value is first
encoded by the field's own declared type (a `TypeDecorator`'s bind conversion
`process_bind_param`) before driver quoting.  Stated from the spec's words for
comparison with `adapt_composite` above. -/
def adapt_composite_spec (adaptQuoted : String → String) (composite : CompositeType)
    (value : List (String × String)) : String :=
  let values := composite.columns.map (fun c =>
    adaptQuoted (match c.type.processBindParam with
      | some f => f (pygetattr value c.name)
      | none => pygetattr value c.name))
  "(" ++ pyJoin ", " values ++ ")::" ++ composite.name

/-- The database engine's type catalog, as far as `dialect.has_type` and the
composite DDL can observe it. -/
structure DB where
  types : List String
deriving DecidableEq

/-- `bind.dialect.has_type(bind, name)`. -/
def DB.hasType (db : DB) (name : String) : Bool := db.types.contains name

/-- The DDL statements this subsystem can emit. -/
inductive DDL where
  | createType (name : String)
  | dropType (name : String)
deriving DecidableEq

/-- Errors the engine raises when executing composite DDL. -/
inductive DBError where
  | duplicateType (name : String)
  | missingType (name : String)
deriving DecidableEq

/-- Executing one DDL statement against the engine: creating a type that
already exists, or dropping one that does not, is an engine error. -/
def DB.exec (db : DB) : DDL → Except DBError DB
  | .createType n =>
    if db.hasType n then .error (.duplicateType n) else .ok ⟨n :: db.types⟩
  | .dropType n =>
    if db.hasType n then .ok ⟨db.types.filter (fun t => t ≠ n)⟩
    else .error (.missingType n)

/-- `CompositeType.create(bind, checkfirst)`: execute `CREATE TYPE` when the
check-first flag is unset, or when it is set and the engine reports the type
absent.  Returns the new engine state and the statements executed. -/
def CompositeType.create (self : CompositeType) (db : DB) (checkfirst : Bool) :
    Except DBError (DB × List DDL) :=
  if !checkfirst || !(db.hasType self.name) then
    (db.exec (.createType self.name)).map (fun db' => (db', [DDL.createType self.name]))
  else .ok (db, [])

/-- `CompositeType.drop(bind, checkfirst=True)`: execute `DROP TYPE` only when
checking is requested and the engine reports the type present.  The
`checkfirst := true` default mirrors the Python signature's default. -/
def CompositeType.drop (self : CompositeType) (db : DB)
    (checkfirst : Bool := true) : Except DBError (DB × List DDL) :=
  if checkfirst && db.hasType self.name then
    (db.exec (.dropType self.name)).map (fun db' => (db', [DDL.dropType self.name]))
  else .ok (db, [])

/-- `register_psycopg2_composite`: `psycopg2.extras.register_composite`
queries the live connection for the named type — failing when it does not
exist in the database — and stores the driver-side class handle on the
`CompositeType` instance as `type_cls`. -/
def register_psycopg2_composite (db : DB) (composite : CompositeType) :
    Except DBError CompositeType :=
  if db.hasType composite.name then
    .ok { composite with type_cls := some composite.name }
  else .error (.missingType composite.name)

/-- The `before_create` lifecycle hook body over the registry entries, in
registry order: each registered composite is created with `checkfirst=True`
and then driver-registered on the live connection.  Returns the updated
registry entries (their `type_cls` now set), the engine state, and all DDL
executed. -/
def before_create_aux (db : DB) :
    List (String × CompositeType) →
    Except DBError (List (String × CompositeType) × DB × List DDL)
  | [] => .ok ([], db, [])
  | (n, c) :: rest =>
    match c.create db true with
    | .error e => .error e
    | .ok (db1, log1) =>
      match register_psycopg2_composite db1 c with
      | .error e => .error e
      | .ok c' =>
        match before_create_aux db1 rest with
        | .error e => .error e
        | .ok (rest', db2, log2) => .ok ((n, c') :: rest', db2, log1 ++ log2)

/-- The `before_create(target, connection)` hook: iterate the whole
process-wide registry. -/
def before_create (reg : Registry) (db : DB) :
    Except DBError (Registry × DB × List DDL) :=
  before_create_aux db reg

/-- `'{name} {type}'.format(...)` for one member column of the DDL. -/
def format_column (compileType : PGType → String) (c : PGColumn) : String :=
  c.name ++ " " ++ compileType c.type

/-- `_visit_create_composite_type`: the `CREATE TYPE` DDL text.
`formatType` is the dialect preparer's identifier formatting (quoting) and
`compileType` the dialect's type compiler. -/
def visit_create_composite_type (formatType : CompositeType → String)
    (compileType : PGType → String) (t : CompositeType) : String :=
  let fields := pyJoin ", " (t.columns.map (format_column compileType))
  "CREATE TYPE " ++ formatType t ++ " AS (" ++ fields ++ ")"

/-- `_visit_drop_composite_type`: the `DROP TYPE` DDL text. -/
def visit_drop_composite_type (formatType : CompositeType → String)
    (t : CompositeType) : String :=
  "DROP TYPE " ++ formatType t

end PgComposite

namespace JsonApi

open SqlAlchemyUtils

/-- A column underlying a descriptor, with the properties
`JSONMapping.validate_column` inspects: whether it is an actual `sa.Column`
(as opposed to e.g. a select expression), whether it carries foreign keys and
whether it is a primary-key column. -/
structure ColumnInfo where
  key : String
  isColumn : Bool
  foreignKeys : Bool
  primaryKey : Bool
deriving DecidableEq

/-- A relationship descriptor as the §4.3 mapper contract exposes it: its
attribute key, the name of the target entity and its cardinality
(`uselist`). -/
structure RelationshipInfo where
  key : String
  target : String
  uselist : Bool
deriving DecidableEq

/-- A field descriptor of a mapped entity: either a columnar descriptor
carrying its underlying columns (a hybrid with no resolvable columns carries
`[]`), or a relationship descriptor. -/
inductive Descriptor where
  | attr (cols : List ColumnInfo)
  | rel (r : RelationshipInfo)
deriving DecidableEq

/-- A mapped entity: its class name and its descriptors keyed by name. -/
structure Model where
  name : String
  descriptors : List (String × Descriptor)
deriving DecidableEq

/-- The set of mapped classes the relationship targets can resolve to. -/
abbrev Env := List Model

/-- The JSON:API error family (`JSONAPIException` subclasses) raised by the
compiler, plus the Python-level errors (`TypeError`/`AttributeError`/…) that
escape it. -/
inductive JSONAPIException where
  | InvalidField (msg : String)
  | UnknownField (msg : String)
  | UnknownModel (msg : String)
  | UnknownFieldKey (msg : String)
  | IdPropertyNotFound (msg : String)
deriving DecidableEq

/-- Either a member of the shared `JSONAPIException` marker family, or a plain
Python error. -/
inductive Err where
  | api (e : JSONAPIException)
  | py (msg : String)
deriving DecidableEq

/-- Modelled from the spec (§4.3 contract, implementation outside the provided
sources): `get_all_descriptors` returns every accessible field descriptor of a
mapped entity or selectable, keyed by name. -/
def get_all_descriptors (m : Model) : List (String × Descriptor) :=
  m.descriptors

/-- Modelled from the spec (§4.3 contract): `get_mapper(model).relationships`,
the relationship descriptors keyed by name. -/
def modelRelationships (m : Model) : List (String × RelationshipInfo) :=
  m.descriptors.filterMap (fun p =>
    match p.2 with
    | .rel r => some (p.1, r)
    | .attr _ => none)

/-- Resolving a relationship's target class name. -/
def resolve (env : Env) (name : String) : Except Err Model :=
  match env.find? (fun m => m.name = name) with
  | some m => .ok m
  | none => .error (.py ("NameError: unknown mapped class " ++ name))

/-- A field specification: Python `fields` dict from model alias to the list
of requested field names. -/
abbrev Fields := List (String × List String)

/-- The SQL/JSON expression trees the compiler emits, at the granularity the
verified document-level properties need.  `subquerySelect cols src` stands for
`sa.select(cols, from_obj=src).as_scalar()`-style scalar subqueries;
`correlatedSelect path e` stands for the correlated inverse-join subquery
built by `select_correlated_expression` for one relationship path;
`unionOrdered` stands for `union(*selects)` ordered by `(type, id)`;
`arrayAggEmpty e` is `sa.func.array_agg(e, [])`; `fromModel` marks a model's
selectable used as a row source. -/
inductive SqlExpr where
  | strLit (v : String)
  | emptyJsonArray
  | col (owner field : String)
  | castText (e : SqlExpr)
  | castJsonb (e : SqlExpr)
  | jsonBuildObject (args : List SqlExpr)
  | coalesce (a b : SqlExpr)
  | arrayAgg (e : SqlExpr)
  | arrayAggEmpty (e : SqlExpr)
  | fromModel (name : String)
  | subquerySelect (cols : List SqlExpr) (src : Option SqlExpr)
  | correlatedSelect (path : String) (e : SqlExpr)
  | notInRootFilter (q : SqlExpr)
  | unionOrdered (selects : List SqlExpr)

/-- `s(value)`: a quoted SQL text literal. -/
def s (value : String) : SqlExpr := .strLit value

/-- The compiled query handed back by `JSONMapping.select`: a plain `SELECT`
of the listed column expressions with no row-generating `FROM` clause (so it
always yields exactly one row). -/
structure Query where
  columns : List SqlExpr

/-- `subpaths(path)`: every dot-prefix of a dot-delimited path, shortest
first, one entry per dot-separated segment of the path. -/
def subpaths (path : String) : List String :=
  (List.range (pySplit path).length).map
    (fun i => pyJoin "." ((pySplit path).take (i + 1)))

/-- Modelled from the spec (§4.3 contract, implementation outside the provided
sources): `path_to_relationships` resolves a dotted relationship-path string
into the ordered relationship chain from the root model, failing when a
segment does not name a relationship on the model reached so far. -/
def path_to_relationships_aux (env : Env) :
    List String → Model → Except Err (List RelationshipInfo)
  | [], _ => .ok []
  | seg :: rest, current =>
    match dget (modelRelationships current) seg with
    | none =>
      .error (.py ("path segment " ++ seg ++ " does not name a relationship of " ++ current.name))
    | some r => do
      let next ← resolve env r.target
      let tail ← path_to_relationships_aux env rest next
      .ok (r :: tail)

/-- Modelled from the spec (§4.3 contract): see `path_to_relationships_aux`. -/
def path_to_relationships (env : Env) (path : String) (model : Model) :
    Except Err (List RelationshipInfo) :=
  path_to_relationships_aux env (pySplit path) model

/-- `get_descriptor_columns`: the columns underlying a columnar descriptor.
On a relationship descriptor the Python code reaches
`descriptor.property.columns`, which a `RelationshipProperty` does not have. -/
def get_descriptor_columns : Descriptor → Except Err (List ColumnInfo)
  | .attr cols => .ok cols
  | .rel _ => .error (.py "AttributeError: RelationshipProperty has no attribute columns")

/-- The compiled registry: the caller-supplied alias-to-entity mapping and the
stored entity-to-alias inverse, which `__init__` sets to Python `None` when
the mapping is empty. -/
structure JSONMapping where
  mapping : List (String × Model)
  inversed : Option (List (Model × String))

/-- `JSONMapping.validate_mapping` over the mapping's values in order: each
mapped entity must expose an `id` descriptor. -/
def validate_models : List Model → Except Err Unit
  | [] => .ok ()
  | m :: rest =>
    if (dget (get_all_descriptors m) "id").isSome then validate_models rest
    else .error (.api (.IdPropertyNotFound
      ("Could not find id property for model " ++ m.name ++ ".")))

/-- `JSONMapping.validate_mapping(mapping)`: validate the mapping's values. -/
def validate_mapping (mapping : List (String × Model)) : Except Err Unit :=
  validate_models (mapping.map Prod.snd)

/-- `JSONMapping.__init__(mapping)`: validate, store the mapping, and store
the inverse built by `dict((value, key) for key, value in mapping.items())` —
or Python `None` when the mapping is falsy (empty). -/
def JSONMapping.init (mapping : List (String × Model)) : Except Err JSONMapping := do
  validate_mapping mapping
  .ok { mapping := mapping,
        inversed :=
          if mapping.isEmpty then none
          else some (mapping.map (fun p => (p.2, p.1))) }

/-- Lookup in the stored inverse map (`self.inversed[key]` when it is a dict,
`none` when the attribute is Python `None`). -/
def JSONMapping.inversedGet (m : JSONMapping) (model : Model) : Option String :=
  match m.inversed with
  | none => none
  | some inv => dget inv model

/-- `JSONMapping.validate_model`: membership test `model not in self.inversed`
(a `TypeError` when `inversed` is `None`, i.e. the mapping was empty). -/
def JSONMapping.validate_model (m : JSONMapping) (model : Model) : Except Err Unit :=
  match m.inversed with
  | none => .error (.py "TypeError: argument of type NoneType is not a container")
  | some inv =>
    if (dget inv model).isSome then .ok ()
    else .error (.api (.UnknownModel
      ("Unknown model given. Could not find model " ++ model.name ++ " from given mapping.")))

/-- `JSONMapping.get_model_alias` (with `sa.orm.aliased` classes identified
with their underlying class in this embedding). -/
def JSONMapping.get_model_alias (m : JSONMapping) (model : Model) : Except Err String := do
  m.validate_model model
  match m.inversedGet model with
  | some a => .ok a
  | none => .error (.py "KeyError")

/-- `JSONMapping.validate_column(field, column)`: only actual `Column` objects
are checked; a foreign-key column is rejected first, then a primary-key
column. -/
def validate_column (field : String) (column : ColumnInfo) : Except Err Unit :=
  if column.isColumn then
    if column.foreignKeys then
      .error (.api (.InvalidField
        ("Field " ++ field ++ " is invalid. The underlying column " ++ column.key ++
         " has foreign key. You cant include foreign key attributes. Consider including relationship attributes.")))
    else if column.primaryKey then
      .error (.api (.InvalidField
        ("Field " ++ field ++ " is invalid. The underlying column " ++ column.key ++
         " is primary key column.")))
    else .ok ()
  else .ok ()

/-- The inner loop of `validate_fields` over one field's columns. -/
def validate_columns (field : String) : List ColumnInfo → Except Err Unit
  | [] => .ok ()
  | c :: rest => do
    validate_column field c
    validate_columns field rest

/-- `JSONMapping.validate_fields(model, fields, from_obj)` iterating the named
fields in order: a name with no descriptor on the selectable raises
`UnknownField`; otherwise every underlying column is validated. -/
def validate_fields (from_obj : Model) : List String → Except Err Unit
  | [] => .ok ()
  | field :: rest =>
    match dget (get_all_descriptors from_obj) field with
    | none =>
      .error (.api (.UnknownField
        ("Unknown field " ++ field ++ ". Given selectable does not have descriptor named " ++
         field ++ ".")))
    | some d => do
      let columns ← get_descriptor_columns d
      validate_columns field columns
      validate_fields from_obj rest

/-- `JSONMapping.is_relationship_field`. -/
def is_relationship_field (model : Model) (field : String) : Bool :=
  (dget (modelRelationships model) field).isSome

/-- `JSONMapping.is_relationship_descriptor`. -/
def is_relationship_descriptor : Descriptor → Bool
  | .rel _ => true
  | .attr _ => false

/-- `JSONMapping.should_skip_columnar_descriptor`: a single-column descriptor
whose column is a foreign-key or primary-key column is skipped.  (Only ever
invoked after the relationship test, matching the short-circuit in the
source.) -/
def should_skip_columnar_descriptor : Descriptor → Bool
  | .attr [c] => c.foreignKeys || c.primaryKey
  | .attr _ => false
  | .rel _ => false

/-- `JSONMapping.get_all_fields(from_obj)`: every descriptor name except the
`__mapper__` marker, relationship descriptors and skipped key columns. -/
def get_all_fields (from_obj : Model) : List String :=
  ((get_all_descriptors from_obj).filter (fun p =>
    p.1 ≠ "__mapper__" &&
    !(is_relationship_descriptor p.2) &&
    !(should_skip_columnar_descriptor p.2))).map Prod.fst

/-- `JSONMapping.get_model_fields`: all eligible fields when the model's alias
is absent from the field spec (or the spec is empty); otherwise exactly the
named non-relationship fields, validated. -/
def JSONMapping.get_model_fields (m : JSONMapping) (model : Model)
    (fields : Fields) (from_obj : Model) : Except Err (List String) := do
  let model_key ← m.get_model_alias model
  if fields.isEmpty || (dget fields model_key).isNone then
    .ok (get_all_fields from_obj)
  else
    let model_fields := ((dget fields model_key).getD []).filter
      (fun field => !(is_relationship_field model field))
    validate_fields from_obj model_fields
    .ok model_fields

/-- `getattr(get_attrs(from_obj), key)`: an attribute reference on the row
source, failing with `AttributeError` when no such descriptor exists. -/
def getattrCol (obj : Model) (key : String) : Except Err SqlExpr :=
  if (dget obj.descriptors key).isSome then .ok (.col obj.name key)
  else .error (.py ("AttributeError: " ++ obj.name ++ " has no attribute " ++ key))

/-- `JSONMapping.build_attributes`: the flattened `[s(key), column]` pairs of
the model's effective fields. -/
def JSONMapping.build_attributes (m : JSONMapping) (model : Model)
    (fields : Fields) (from_obj : Model) : Except Err (List SqlExpr) := do
  let flds ← m.get_model_fields model fields from_obj
  let pairs ← flds.mapM (fun key => do
    let c ← getattrCol from_obj key
    pure [s key, c])
  .ok pairs.flatten

/-- `JSONMapping.build_resource_identifier`: `['id', text(id), 'type', alias]`. -/
def JSONMapping.build_resource_identifier (m : JSONMapping) (model : Model)
    (from_obj : Model) : Except Err (List SqlExpr) := do
  let model_alias ← m.get_model_alias model
  let idCol ← getattrCol from_obj "id"
  .ok [s "id", .castText idCol, s "type", s model_alias]

/-- `JSONMapping.build_relationship`: one relationship's
`[s(key), json_build_object('data', <correlated subquery>)]` pair; a to-many
relationship aggregates the correlated rows into an array with an
empty-array coalesce. -/
def JSONMapping.build_relationship (env : Env) (m : JSONMapping) (_model : Model)
    (_fields : Fields) (rel : RelationshipInfo) (_from_obj : Model) :
    Except Err (List SqlExpr) := do
  let cls ← resolve env rel.target
  let aliasM := cls
  let relationship_attrs ← m.build_resource_identifier aliasM aliasM
  let func := SqlExpr.jsonBuildObject relationship_attrs
  let query := SqlExpr.correlatedSelect rel.key func
  let query :=
    if rel.uselist then
      SqlExpr.subquerySelect
        [.coalesce (.arrayAgg (.col "relationships" "json_object")) .emptyJsonArray]
        (some query)
    else query
  .ok [s rel.key, .jsonBuildObject [s "data", query]]

/-- `JSONMapping.build_relationships`: every relationship when the model's
alias is absent from the field spec, else only the named relationship
fields. -/
def JSONMapping.build_relationships (env : Env) (m : JSONMapping) (model : Model)
    (fields : Fields) (from_obj : Model) : Except Err (List SqlExpr) := do
  let model_alias ← m.get_model_alias model
  let relationships :=
    if (dget fields model_alias).isNone then
      (modelRelationships model).map Prod.snd
    else
      ((dget fields model_alias).getD []).filterMap
        (fun field => dget (modelRelationships model) field)
  let parts ← relationships.mapM
    (fun rel => m.build_relationship env model fields rel from_obj)
  .ok parts.flatten

/-- `JSONMapping.build_attrs_and_relationships`: `attributes` then
`relationships`, each omitted when empty. -/
def JSONMapping.build_attrs_and_relationships (env : Env) (m : JSONMapping)
    (model : Model) (fields : Fields) (from_obj : Model) :
    Except Err (List SqlExpr) := do
  let attrs ← m.build_attributes model fields from_obj
  let json_relationships ← m.build_relationships env model fields from_obj
  .ok ((if attrs.isEmpty then [] else [s "attributes", .jsonBuildObject attrs]) ++
       (if json_relationships.isEmpty then []
        else [s "relationships", .jsonBuildObject json_relationships]))

/-- `JSONMapping.build_data`: the `['data', <aggregated resource objects>]`
pair — per-row resource objects packed by `json_build_object` in a correlated
subquery aliased `main_json`, aggregated with `array_agg`. -/
def JSONMapping.build_data (env : Env) (m : JSONMapping) (model : Model)
    (fields : Fields) (_inc : Option (List String)) (from_obj : Model) :
    Except Err (List SqlExpr) := do
  let json_fields ← m.build_resource_identifier model from_obj
  let more ← m.build_attrs_and_relationships env model fields from_obj
  let subquery := SqlExpr.subquerySelect [.jsonBuildObject (json_fields ++ more)] none
  .ok [s "data",
       .subquerySelect [.arrayAgg (.col "main_json" "json_object")] (some subquery)]

/-- `JSONMapping.validate_field_keys(fields)`: with a truthy field spec, every
key must be a key of the alias mapping. -/
def JSONMapping.validate_field_keys (m : JSONMapping) (fields : Option Fields) :
    Except Err Unit :=
  match fields with
  | none => .ok ()
  | some fd =>
    if fd.isEmpty then .ok ()
    else
      let unknown_keys := (dkeys fd).filter (fun k => !(dget m.mapping k).isSome)
      if unknown_keys.isEmpty then .ok ()
      else .error (.api (.UnknownFieldKey
        ("Unknown field keys given. Could not find " ++ pyJoin "," unknown_keys ++
         " from given model mapping.")))

/-- Python truthiness of the `include` argument: a non-`None`, non-empty
collection. -/
def includeTruthy : Option (List String) → Bool
  | none => false
  | some l => !l.isEmpty

/-- `JSONMapping.build_single_included_fields`: the resource identifier, plus
attributes/relationships when the alias appears in the field spec. -/
def JSONMapping.build_single_included_fields (env : Env) (m : JSONMapping)
    (aliasM : Model) (fields : Fields) : Except Err (List SqlExpr) := do
  let cls_key ← m.get_model_alias aliasM
  let json_fields ← m.build_resource_identifier aliasM aliasM
  if (dget fields cls_key).isSome then
    let more ← m.build_attrs_and_relationships env aliasM fields aliasM
    .ok (json_fields ++ more)
  else
    .ok json_fields

/-- `JSONMapping.build_single_included`: the correlated subquery producing the
full resource objects of one include prefix; when the leaf class is the root
model itself, rows already in the root row set are excluded. -/
def JSONMapping.build_single_included (env : Env) (m : JSONMapping) (model : Model)
    (fields : Fields) (path : String) (_from_obj : Model) : Except Err SqlExpr := do
  let relationships ← path_to_relationships env path model
  let lastRel ←
    match relationships.getLast? with
    | some r => .ok r
    | none => .error (.py "IndexError: list index out of range")
  let cls ← resolve env lastRel.target
  let aliasM := cls
  let flds ← m.build_single_included_fields env aliasM fields
  let func := SqlExpr.castJsonb (.jsonBuildObject flds)
  let query := SqlExpr.correlatedSelect path func
  .ok (if cls = model then .notInRootFilter query else query)

/-- `JSONMapping.build_included`: with a truthy include spec, one
`build_single_included` subquery per dot-prefix of every requested path, all
combined by a duplicate-eliminating union ordered by `(type, id)` and
aggregated into the `included` array; otherwise nothing. -/
def JSONMapping.build_included (env : Env) (m : JSONMapping) (model : Model)
    (fields : Fields) (inc : Option (List String)) (from_obj : Model) :
    Except Err (List SqlExpr) := do
  if includeTruthy inc then
    let paths := inc.getD []
    let allSub := (paths.map subpaths).flatten
    let selects ← allSub.mapM
      (fun subpath => m.build_single_included env model fields subpath from_obj)
    .ok [s "included",
         .subquerySelect [.arrayAggEmpty (.col "included" "json_object")]
           (some (.unionOrdered selects))]
  else
    .ok []

/-- The `empty_args` fallback document fields of `JSONMapping.select`:
`['data', <empty json array>]`, extended with `['included', <empty json
array>]` exactly when the include argument is truthy. -/
def empty_args (inc : Option (List String)) : List SqlExpr :=
  [s "data", .emptyJsonArray] ++
    (if includeTruthy inc then [s "included", .emptyJsonArray] else [])

/-- `JSONMapping.select(model, fields=None, include=None, from_obj=None)`:
validate the field-spec keys, build the document fields, and return one
single-column query whose value is
`coalesce(<document subquery over from_obj>, json_build_object(*empty_args))`. -/
def JSONMapping.select (env : Env) (m : JSONMapping) (model : Model)
    (fields : Option Fields := none) (inc : Option (List String) := none)
    (from_obj : Option Model := none) : Except Err Query := do
  m.validate_field_keys fields
  let fields := fields.getD []
  let from_obj := from_obj.getD model
  let args ← m.build_data env model fields inc from_obj
  let included ← m.build_included env model fields inc from_obj
  let args := args ++ included
  .ok ⟨[SqlExpr.coalesce
          (.subquerySelect [.jsonBuildObject args] (some (.fromModel from_obj.name)))
          (.jsonBuildObject (empty_args inc))]⟩

/-- JSON values, for the document-level evaluation semantics. -/
inductive Json where
  | null
  | str (v : String)
  | arr (xs : List Json)
  | obj (fields : List (String × Json))

/-- `json_build_object` key/value pairing of an evaluated argument list. -/
def pairup : List Json → List (String × Json)
  | .str k :: v :: rest => (k, v) :: pairup rest
  | _ => []

mutual
/-- Document-level evaluation of a compiled expression over a root row source
with `n` rows: a scalar subquery over an empty row source is SQL `NULL`,
`json_build_object` always yields a JSON object, `coalesce` takes its first
non-`NULL` argument, and the correlated inner machinery this development
states no claims about evaluates to `NULL` (which only ever weakens, never
helps, the non-nullness facts proved below). -/
def evalExpr (n : Nat) : SqlExpr → Json
  | .strLit v => .str v
  | .emptyJsonArray => .arr []
  | .jsonBuildObject args => .obj (pairup (evalList n args))
  | .coalesce a b =>
    match evalExpr n a with
    | .null => evalExpr n b
    | v => v
  | .subquerySelect cols _ =>
    if n = 0 then .null else (evalList n cols).headD .null
  | _ => .null

/-- Evaluation of an expression list (see `evalExpr`). -/
def evalList (n : Nat) : List SqlExpr → List Json
  | [] => []
  | e :: es => evalExpr n e :: evalList n es
end

/-- Running the compiled top-level query over a root row source with `n`
rows: the query has no row-generating `FROM`, so it yields exactly one row
holding its column values. -/
def runQuery (q : Query) (n : Nat) : List (List Json) :=
  [q.columns.map (evalExpr n)]

/-- The empty-document JSON shape the coalesce fallback denotes. -/
def emptyDocJson (inc : Option (List String)) : Json :=
  .obj ([("data", .arr [])] ++
    (if includeTruthy inc then [("included", .arr [])] else []))

end JsonApi

/-! ## Concrete fixtures

Concrete instances used by the closed witnesses and counterexamples below:
the `money_type` composite from the module's own docstring and a small
`User`/`Article` entity graph for the JSON:API compiler. -/

namespace PgComposite

/-- A `TypeDecorator`-style currency type: its bind conversion strips the
`Currency` wrapper prefix (8 characters) off the value's text. -/
def currencyType : PGType := ⟨"VARCHAR(3)", .otherT, some (fun v => String.mk (v.data.drop 8))⟩

/-- A plain integer column type. -/
def intType : PGType := ⟨"INTEGER", .otherT, none⟩

/-- The docstring's `money_type` composite, not yet driver-registered. -/
def moneyType : CompositeType :=
  ⟨"money_type", [⟨"currency", currencyType⟩, ⟨"amount", intType⟩], none⟩

/-- The `money_type` composite viewed as an array item type:
`CompositeType.python_type` is `tuple`. -/
def moneyItemType : PGType := ⟨"money_type", .tupleT, none⟩

/-- A stand-in for the driver's generic `adapt(...).getquoted()`. -/
def bracketQuote (v : String) : String := "[" ++ v ++ "]"

/-- A composite value holding a wrapped currency object and an amount. -/
def moneyValue : List (String × String) := [("currency", "CurrencyUSD"), ("amount", "500")]

/-- A stand-in item decoder for array-of-composite decoding. -/
def decodeItem (v : String) : String := "decoded " ++ v

/-- A raw one-element array-of-composite value. -/
def rawMoneyArr : List String := ["(USD,500)"]

/-- The `money_type` instance after driver registration set its handle. -/
def registeredMoney : CompositeType :=
  ⟨"money_type", [⟨"currency", currencyType⟩, ⟨"amount", intType⟩], some "money_type"⟩

/-- A registry whose `money_type` entry has been driver-registered. -/
def regWithHandle : Registry := [("money_type", registeredMoney)]

/-- A registry whose `money_type` entry has never been driver-registered. -/
def regWithoutHandle : Registry := [("money_type", moneyType)]

/-- A second composite type for the lifecycle-hook witness. -/
def pointType : CompositeType := ⟨"point_type", [⟨"x", intType⟩, ⟨"y", intType⟩], none⟩

/-- A two-entry registry for the lifecycle-hook witness. -/
def regTwo : Registry := [("money_type", moneyType), ("point_type", pointType)]

/-- An engine with an empty type catalog. -/
def emptyDB : DB := ⟨[]⟩

end PgComposite

namespace JsonApi

/-- A primary-key `id` column. -/
def idCol : ColumnInfo := ⟨"id", true, false, true⟩

/-- A plain `name` column. -/
def nameCol : ColumnInfo := ⟨"name", true, false, false⟩

/-- A foreign-key `author_id` column. -/
def authorIdCol : ColumnInfo := ⟨"author_id", true, true, false⟩

/-- The to-many `User.articles` relationship. -/
def articlesRel : RelationshipInfo := ⟨"articles", "Article", true⟩

/-- A `User` entity with `id`, `name` and an `articles` relationship. -/
def userModel : Model :=
  ⟨"User", [("id", .attr [idCol]), ("name", .attr [nameCol]), ("articles", .rel articlesRel)]⟩

/-- An `Article` entity with `id` and a foreign-key `author_id`. -/
def articleModel : Model :=
  ⟨"Article", [("id", .attr [idCol]), ("author_id", .attr [authorIdCol])]⟩

/-- The mapped classes of the fixture graph. -/
def env0 : Env := [userModel, articleModel]

/-- The alias mapping of the fixture graph. -/
def mapping0 : List (String × Model) := [("users", userModel), ("articles", articleModel)]

/-- The registry built from `mapping0`, exactly as `JSONMapping.init` builds it. -/
def m0 : JSONMapping := ⟨mapping0, some (mapping0.map (fun p => (p.2, p.1)))⟩

/-- The compiled fixture query `select(userModel, include={"articles"})`. -/
def q0 : Query :=
  match JSONMapping.select env0 m0 userModel none (some ["articles"]) none with
  | .ok q => q
  | .error _ => ⟨[]⟩

/-- A singleton registry over the `User` entity alone. -/
def mSingle : JSONMapping := ⟨[("users", userModel)], some [(userModel, "users")]⟩

/-- An entity mapped under two aliases at once in `dupMapping`. -/
def sharedModel : Model := ⟨"Shared", [("id", .attr [idCol])]⟩

/-- A non-injective alias mapping: two aliases name the same entity. -/
def dupMapping : List (String × Model) := [("a", sharedModel), ("b", sharedModel)]

/-- The registry `JSONMapping.init` accepts for `dupMapping`. -/
def mdup : JSONMapping := ⟨dupMapping, some (dupMapping.map (fun p => (p.2, p.1)))⟩

end JsonApi

/-! ## Helper lemmas on the Python dict and string models -/

namespace SqlAlchemyUtils

variable {α β : Type}

@[simp] theorem dkeys_nil : dkeys ([] : List (α × β)) = [] := rfl

@[simp] theorem dkeys_cons (p : α × β) (l : List (α × β)) :
    dkeys (p :: l) = p.1 :: dkeys l := rfl

variable [DecidableEq α]

theorem dget_isSome_iff {l : List (α × β)} {k : α} :
    (dget l k).isSome = true ↔ k ∈ dkeys l := by
  induction l with
  | nil => simp [dget]
  | cons p rest ih =>
    simp only [dget, dkeys_cons, List.mem_cons]
    cases h : dget rest k with
    | some v =>
      simp only [Option.isSome_some, true_iff]
      right
      rw [← ih, h]
      rfl
    | none =>
      rw [h] at ih
      simp only [Option.isSome_none, Bool.false_eq_true, false_iff] at ih
      constructor
      · intro hs
        by_cases hp : p.1 = k
        · left; exact hp.symm
        · simp [hp] at hs
      · intro hmem
        rcases hmem with hmem | hmem
        · simp [hmem]
        · exact absurd hmem ih

theorem dget_eq_none_iff {l : List (α × β)} {k : α} :
    dget l k = none ↔ k ∉ dkeys l := by
  rw [← dget_isSome_iff]
  cases dget l k <;> simp

theorem mem_of_dget_eq_some {l : List (α × β)} {k : α} {v : β}
    (h : dget l k = some v) : (k, v) ∈ l := by
  induction l with
  | nil => simp [dget] at h
  | cons p rest ih =>
    simp only [dget] at h
    cases hr : dget rest k with
    | some w =>
      rw [hr] at h
      cases h
      exact List.mem_cons_of_mem _ (ih hr)
    | none =>
      rw [hr] at h
      by_cases hp : p.1 = k
      · rw [if_pos hp] at h
        cases h
        exact List.mem_cons.mpr (Or.inl (by rw [← hp]))
      · rw [if_neg hp] at h
        cases h

theorem dget_eq_some_of_mem {l : List (α × β)} {k : α} {v : β}
    (hnd : (dkeys l).Nodup) (hmem : (k, v) ∈ l) : dget l k = some v := by
  induction l with
  | nil => simp at hmem
  | cons p rest ih =>
    rw [dkeys_cons, List.nodup_cons] at hnd
    rcases List.mem_cons.mp hmem with heq | hmem'
    · have hk : p.1 = k := by rw [← heq]
      have hv : p.2 = v := by rw [← heq]
      have hnone : dget rest k = none := by
        rw [dget_eq_none_iff]
        rw [← hk]
        exact hnd.1
      simp [dget, hnone, hk, hv]
    · have := ih hnd.2 hmem'
      simp [dget, this]

theorem dget_unique_of_nodup {l : List (α × β)} {k : α} {v w : β}
    (hnd : (dkeys l).Nodup) (h1 : (k, v) ∈ l) (h2 : (k, w) ∈ l) : v = w := by
  have e1 := dget_eq_some_of_mem hnd h1
  have e2 := dget_eq_some_of_mem hnd h2
  rw [e1] at e2
  cases e2
  rfl

/-- Helper for relating `pyJoin` to `String.intercalate`: the tail fold that
prepends the separator before every element. -/
def joinPre (sep : String) : List String → String
  | [] => ""
  | x :: xs => sep ++ x ++ joinPre sep xs

theorem intercalate_go_eq (sep : String) (l : List String) (acc : String) :
    String.intercalate.go acc sep l = acc ++ joinPre sep l := by
  induction l generalizing acc with
  | nil => simp [String.intercalate.go, joinPre]
  | cons x xs ih =>
    rw [String.intercalate.go, ih, joinPre]
    simp [String.append_assoc]

theorem pyJoin_cons (sep x : String) (xs : List String) :
    pyJoin sep (x :: xs) = if xs.isEmpty then x else x ++ sep ++ pyJoin sep xs := by
  cases xs <;> simp [pyJoin]

/-- Python `str.join` agrees with `String.intercalate`. -/
theorem pyJoin_eq_intercalate (sep : String) (l : List String) :
    pyJoin sep l = String.intercalate sep l := by
  cases l with
  | nil => rfl
  | cons x xs =>
    rw [String.intercalate, intercalate_go_eq]
    induction xs generalizing x with
    | nil => simp [pyJoin, joinPre]
    | cons y ys ih =>
      rw [pyJoin_cons]
      simp only [List.isEmpty_cons, joinPre]
      rw [if_neg (by simp), ih y]
      simp [String.append_assoc]

theorem splitDots_ne_nil (cs : List Char) : splitDots cs ≠ [] := by
  induction cs with
  | nil => simp [splitDots]
  | cons c rest ih =>
    simp only [splitDots]
    split
    · simp
    · cases h : splitDots rest with
      | nil => simp
      | cons seg segs => simp

theorem joinDots_cons (x : List Char) (xs : List (List Char)) :
    joinDots (x :: xs) = if xs.isEmpty then x else x ++ '.' :: joinDots xs := by
  cases xs <;> simp [joinDots]

/-- Joining with dots inverts splitting at dots. -/
theorem joinDots_splitDots (cs : List Char) : joinDots (splitDots cs) = cs := by
  induction cs with
  | nil => simp [splitDots, joinDots]
  | cons c rest ih =>
    simp only [splitDots]
    split
    · rename_i hc
      rw [joinDots_cons]
      rw [if_neg (by simp [splitDots_ne_nil rest])]
      simp [ih, hc]
    · cases h : splitDots rest with
      | nil => exact absurd h (splitDots_ne_nil rest)
      | cons seg segs =>
        rw [h] at ih
        cases segs with
        | nil => simp [joinDots] at ih ⊢; simp [ih]
        | cons t ts =>
          simp only [joinDots] at ih ⊢
          simp [ih]

theorem string_mk_append (a b : List Char) : String.mk a ++ String.mk b = String.mk (a ++ b) := rfl

theorem dot_eq_mk : ("." : String) = String.mk ['.'] := rfl

theorem pyJoin_map_mk (l : List (List Char)) :
    pyJoin "." (l.map String.mk) = String.mk (joinDots l) := by
  induction l with
  | nil => rfl
  | cons x xs ih =>
    cases xs with
    | nil => rfl
    | cons y ys =>
      simp only [List.map, pyJoin, joinDots] at *
      rw [ih]
      rw [dot_eq_mk, string_mk_append, string_mk_append]
      simp

/-- Python's `'.'.join(path.split('.'))` round-trips to the path itself. -/
theorem pyJoin_pySplit (s : String) : pyJoin "." (pySplit s) = s := by
  rw [pySplit, pyJoin_map_mk, joinDots_splitDots]

theorem pySplit_ne_nil (s : String) : pySplit s ≠ [] := by
  simp [pySplit, splitDots_ne_nil]

theorem pyJoin_take_succ (sep : String) (l : List String) (i : Nat) (h : i + 1 < l.length) :
    pyJoin sep (l.take (i + 2)) =
      pyJoin sep (l.take (i + 1)) ++ sep ++ l.get ⟨i + 1, h⟩ := by
  induction l generalizing i with
  | nil => simp at h
  | cons x xs ih =>
    cases i with
    | zero =>
      cases xs with
      | nil => simp at h
      | cons y ys => simp [pyJoin]
    | succ j =>
      have hj : j + 1 < xs.length := by simpa using h
      have hne : xs.take (j + 2) ≠ [] := by
        intro hemp
        have := List.length_take (j + 2) xs
        rw [hemp] at this
        simp at this
        omega
      have hne1 : xs.take (j + 1) ≠ [] := by
        intro hemp
        have := List.length_take (j + 1) xs
        rw [hemp] at this
        simp at this
        omega
      show pyJoin sep (x :: xs.take (j + 2)) = pyJoin sep (x :: xs.take (j + 1)) ++ sep ++ _
      rw [show pyJoin sep (x :: xs.take (j + 2)) = x ++ sep ++ pyJoin sep (xs.take (j + 2)) by
        cases hx : xs.take (j + 2) with
        | nil => exact absurd hx hne
        | cons a as => simp [pyJoin]]
      rw [show pyJoin sep (x :: xs.take (j + 1)) = x ++ sep ++ pyJoin sep (xs.take (j + 1)) by
        cases hx : xs.take (j + 1) with
        | nil => exact absurd hx hne1
        | cons a as => simp [pyJoin]]
      rw [ih j hj]
      simp [String.append_assoc]

theorem joinDots_take_isPrefix (k : Nat) (l : List (List Char)) :
    ∃ rest, joinDots (l.take k) ++ rest = joinDots l := by
  induction l generalizing k with
  | nil => exact ⟨[], by simp⟩
  | cons x xs ih =>
    cases k with
    | zero => exact ⟨joinDots (x :: xs), by simp [joinDots]⟩
    | succ j =>
      cases xs with
      | nil => exact ⟨[], by simp [joinDots]⟩
      | cons y ys =>
        cases hj : (y :: ys).take j with
        | nil =>
          have : j = 0 := by
            have := List.length_take j (y :: ys)
            rw [hj] at this
            simp at this
            omega
          subst this
          exact ⟨'.' :: joinDots (y :: ys), by simp [joinDots]⟩
        | cons t ts =>
          obtain ⟨rest, hrest⟩ := ih j
          refine ⟨rest, ?_⟩
          show joinDots (x :: (y :: ys).take j) ++ rest = joinDots (x :: y :: ys)
          rw [joinDots_cons, if_neg (by simp [hj]), joinDots_cons, if_neg (by simp)]
          rw [hj] at hrest ⊢
          simp only [List.append_assoc, List.cons_append]
          rw [hrest]

/-- Every dot-prefix of a path is a string prefix of the path. -/
theorem pyJoin_take_prefix (s : String) (k : Nat) :
    ∃ rest, pyJoin "." ((pySplit s).take k) ++ rest = s := by
  obtain ⟨rest, hrest⟩ := joinDots_take_isPrefix k (splitDots s.data)
  refine ⟨String.mk rest, ?_⟩
  have hmap : (pySplit s).take k = ((splitDots s.data).take k).map String.mk := by
    simp [pySplit, List.map_take]
  rw [hmap, pyJoin_map_mk, string_mk_append, hrest, joinDots_splitDots]

end SqlAlchemyUtils

/-! ## Composite column-type subsystem: claim theorems -/

namespace PgComposite

open SqlAlchemyUtils

/-- Helper for C5: when neither the accessed key nor `name` is a declared
field, the comparator's `__getattr__` re-enters itself through the error
message's `self.name` access at every level of the recursion budget. -/
theorem getattr_name_recursion (ct : CompositeType) (exprSql : String)
    (hname : dget ct.typemap "name" = none) :
    ∀ fuel key, dget ct.typemap key = none →
      comparatorGetattr ct exprSql fuel key = .recursionError := by
  intro fuel
  induction fuel with
  | zero =>
    intro key hkey
    simp [comparatorGetattr, hkey]
  | succ n ih =>
    intro key hkey
    simp only [comparatorGetattr, hkey]
    rw [ih "name" hname]

/-- **C5** (code bug): accessing a *declared* field of a composite-typed
expression yields a `CompositeElement` that compiles to the row-field
extraction syntax `(<row-expr>).<field>` (with `typemap` modelled from the
spec, its assignment being absent from the provided source); but accessing an
*undeclared* field never produces the claimed lookup error naming the type
and the field: building the `KeyError` message evaluates `self.name` on the
comparator, which has no `name` attribute, so `__getattr__` re-enters itself
without bound and the access dies with a `RecursionError` instead. -/
theorem composite_subfield_access (ct : CompositeType) (exprSql key : String) :
    (∀ ty, dget ct.typemap key = some ty → ∀ fuel,
        comparatorGetattr ct exprSql fuel key = .ok ⟨exprSql, key, ty⟩ ∧
        compile_pgelem ⟨exprSql, key, ty⟩ = "(" ++ exprSql ++ ")." ++ key) ∧
    (dget ct.typemap key = none → dget ct.typemap "name" = none → ∀ fuel,
        comparatorGetattr ct exprSql fuel key = .recursionError) := by
  constructor
  · intro ty hdecl fuel
    refine ⟨?_, rfl⟩
    cases fuel <;> simp [comparatorGetattr, hdecl]
  · intro hkey hname fuel
    exact getattr_name_recursion ct exprSql hname fuel key hkey

/-- Witness for C5 on the docstring's `money_type`: the declared `currency`
field resolves and compiles, while the undeclared `foo` field exhausts any
recursion budget. -/
theorem composite_subfield_access_witness :
    (comparatorGetattr moneyType "account.balance" 100 "currency"
        = .ok ⟨"account.balance", "currency", currencyType⟩ ∧
     compile_pgelem ⟨"account.balance", "currency", currencyType⟩
        = "(" ++ "account.balance" ++ ")." ++ "currency") ∧
    comparatorGetattr moneyType "account.balance" 100 "foo" = .recursionError :=
  ⟨(composite_subfield_access moneyType "account.balance" "currency").1 currencyType rfl 100,
   (composite_subfield_access moneyType "account.balance" "foo").2 rfl rfl 100⟩

/-- **C6** (code bug): on a one-dimensional (`dim is None`) array of
composites the raw value is returned unchanged, but in the non-skip case
(here: declared `dimensions=1`) the method invokes the plain array decoding
and then *drops its result*, returning Python `None` instead of the decoded
collection the plain array type would produce. -/
theorem composite_array_proc_at_inputs :
    CompositeArray_proc_array moneyItemType decodeItem none rawMoneyArr = some rawMoneyArr ∧
    CompositeArray_proc_array moneyItemType decodeItem (some 1) rawMoneyArr = none ∧
    plainArrayDecode decodeItem (some 1) rawMoneyArr = some ["decoded (USD,500)"] ∧
    CompositeArray_proc_array moneyItemType decodeItem (some 1) rawMoneyArr ≠
      plainArrayDecode decodeItem (some 1) rawMoneyArr :=
  ⟨rfl, rfl, rfl, by decide⟩

/-- **C7** (code bug): the write-path encoder renders the parenthesised,
comma-joined, declaration-ordered literal with the `::<type-name>` suffix,
but each field literal is produced by the driver's generic `adapt` of the raw
attribute value — the field's own declared type (here the `currency`
decorator's bind conversion) is never applied, so the rendered literal
differs from the declared-type encoding the claim describes. -/
theorem adapt_composite_at_decorated_value :
    adapt_composite bracketQuote moneyType moneyValue
        = "([CurrencyUSD], [500])::money_type" ∧
    adapt_composite_spec bracketQuote moneyType moneyValue
        = "([USD], [500])::money_type" ∧
    adapt_composite bracketQuote moneyType moneyValue ≠
      adapt_composite_spec bracketQuote moneyType moneyValue :=
  ⟨rfl, rfl, by decide⟩

/-- **C9**: the composite DDL is exactly
`CREATE TYPE <qualified-name> AS (<field1> <sqltype1>, ...)` with the fields
comma-joined in declaration order, and `DROP TYPE <qualified-name>`, modulo
the dialect's identifier formatting `formatType` and type rendering
`compileType`. -/
theorem composite_ddl_text (formatType : CompositeType → String)
    (compileType : PGType → String) (t : CompositeType) :
    visit_create_composite_type formatType compileType t =
      "CREATE TYPE " ++ formatType t ++ " AS (" ++
        String.intercalate ", "
          (t.columns.map (fun c => c.name ++ " " ++ compileType c.type)) ++ ")" ∧
    visit_drop_composite_type formatType t = "DROP TYPE " ++ formatType t := by
  constructor
  · simp only [visit_create_composite_type, pyJoin_eq_intercalate]
    rfl
  · rfl

/-- **C10**: constructing a `CompositeType` under an already-registered name
leaves the registry entry (the first-declared instance, with its original
columns) untouched and copies its driver-side `type_cls` handle onto the new
instance; when the first instance has not been driver-registered yet — the
handle attribute absent — the copy raises `AttributeError`. -/
theorem composite_reregistration (name : String) (columns : List PGColumn)
    (reg : Registry) (existing : CompositeType)
    (h : dget reg name = some existing) :
    (∀ hnd, existing.type_cls = some hnd →
        CompositeType.init name columns reg = .ok (⟨name, columns, some hnd⟩, reg)) ∧
    (existing.type_cls = none →
        ∃ msg, CompositeType.init name columns reg = .error (.attributeError msg)) := by
  constructor
  · intro hnd hh
    simp [CompositeType.init, h, hh]
  · intro hh
    refine ⟨"CompositeType object has no attribute type_cls", ?_⟩
    simp [CompositeType.init, h, hh]

/-- Witness for C10: re-declaring `money_type` against a registry whose first
instance is driver-registered copies the handle and keeps the registry; doing
so against a never-registered first instance fails. -/
theorem composite_reregistration_witness :
    CompositeType.init "money_type" [] regWithHandle =
      .ok (⟨"money_type", [], some "money_type"⟩, regWithHandle) ∧
    ∃ msg, CompositeType.init "money_type" [] regWithoutHandle =
      .error (.attributeError msg) :=
  ⟨(composite_reregistration "money_type" [] regWithHandle registeredMoney rfl).1
      "money_type" rfl,
   (composite_reregistration "money_type" [] regWithoutHandle moneyType rfl).2 rfl⟩

end PgComposite

namespace PgComposite

open SqlAlchemyUtils

theorem hasType_iff (db : DB) (x : String) : db.hasType x = true ↔ x ∈ db.types := by
  simp [DB.hasType]

/-- Helper for C8: one pass of the `before_create` hook (i) only ever adds
types — afterwards a type exists iff it existed before or its `CREATE TYPE`
was executed, (ii) never creates an already-present type, (iii) creates each
type name at most once, and (iv) leaves every processed registry entry's type
present. -/
theorem before_create_aux_spec (l : List (String × CompositeType)) :
    ∀ db l' db2 log, before_create_aux db l = .ok (l', db2, log) →
      (∀ x, x ∈ db2.types ↔ (x ∈ db.types ∨ DDL.createType x ∈ log)) ∧
      (∀ x, x ∈ db.types → DDL.createType x ∉ log) ∧
      (∀ x, log.count (DDL.createType x) ≤ 1) ∧
      (∀ p ∈ l', p.2.name ∈ db2.types) := by
  induction l with
  | nil =>
    intro db l' db2 log h
    simp only [before_create_aux] at h
    cases h
    simp
  | cons hd rest ih =>
    intro db l' db2 log h
    obtain ⟨n, c⟩ := hd
    simp only [before_create_aux] at h
    by_cases hpres : db.hasType c.name = true
    · -- the type already exists: create is skipped
      simp only [show c.create db true = .ok (db, []) from by
          simp [CompositeType.create, hpres],
        show register_psycopg2_composite db c =
            .ok { c with type_cls := some c.name } from by
          simp [register_psycopg2_composite, hpres]] at h
      cases hrest : before_create_aux db rest with
      | error e => rw [hrest] at h; cases h
      | ok out =>
        obtain ⟨rest', db2', log2⟩ := out
        rw [hrest] at h
        cases h
        obtain ⟨h1, h2, h3, h4⟩ := ih db rest' db2 log2 hrest
        refine ⟨h1, h2, h3, ?_⟩
        intro p hp
        rcases List.mem_cons.mp hp with heq | hmem
        · subst heq
          show c.name ∈ db2.types
          rw [h1]
          exact Or.inl ((hasType_iff db c.name).mp hpres)
        · exact h4 p hmem
    · -- the type is absent: CREATE TYPE executes and adds it
      have hpres' : db.hasType c.name = false := by
        cases hh : db.hasType c.name
        · rfl
        · exact absurd hh hpres
      simp only [show c.create db true =
            .ok (⟨c.name :: db.types⟩, [DDL.createType c.name]) from by
          simp [CompositeType.create, hpres', DB.exec, Except.map],
        show register_psycopg2_composite ⟨c.name :: db.types⟩ c =
            .ok { c with type_cls := some c.name } from by
          simp [register_psycopg2_composite, DB.hasType]] at h
      cases hrest : before_create_aux ⟨c.name :: db.types⟩ rest with
      | error e => rw [hrest] at h; cases h
      | ok out =>
        obtain ⟨rest', db2', log2⟩ := out
        rw [hrest] at h
        cases h
        obtain ⟨h1, h2, h3, h4⟩ := ih ⟨c.name :: db.types⟩ rest' db2 log2 hrest
        have hnotin2 : DDL.createType c.name ∉ log2 := by
          intro hmem
          exact h2 c.name (by simp) hmem
        refine ⟨?_, ?_, ?_, ?_⟩
        · intro x
          rw [h1 x]
          constructor
          · rintro (hx | hx)
            · rcases List.mem_cons.mp hx with hx | hx
              · subst hx; exact Or.inr (by simp)
              · exact Or.inl hx
            · exact Or.inr (by simp [hx])
          · rintro (hx | hx)
            · exact Or.inl (List.mem_cons_of_mem _ hx)
            · rcases List.mem_cons.mp hx with hx | hx
              · cases hx; exact Or.inl (by simp)
              · exact Or.inr hx
        · intro x hx hmem
          rcases List.mem_cons.mp hmem with heq | hmem2
          · injection heq with hxc
            subst hxc
            exact hpres ((hasType_iff db c.name).mpr hx)
          · exact h2 x (List.mem_cons_of_mem _ hx) hmem2
        · intro x
          rw [List.singleton_append, List.count_cons]
          by_cases hx : x = c.name
          · subst hx
            have h0 : log2.count (DDL.createType c.name) = 0 :=
              List.count_eq_zero.mpr hnotin2
            simp [h0]
          · simp only [beq_iff_eq]
            rw [if_neg (by simp [Ne.symm hx])]
            have := h3 x
            omega
        · intro p hp
          rcases List.mem_cons.mp hp with heq | hmem
          · subst heq
            show c.name ∈ db2.types
            rw [h1]
            exact Or.inl (by simp)
          · exact h4 p hmem

/-- Helper for C8: when every registered type is already present, a pass of
the `before_create` hook executes no DDL at all, leaves the engine unchanged
and succeeds, only refreshing the driver-side handles. -/
theorem before_create_aux_all_present (l : List (String × CompositeType)) :
    ∀ db, (∀ p ∈ l, p.2.name ∈ db.types) →
      before_create_aux db l =
        .ok (l.map (fun p => (p.1, { p.2 with type_cls := some p.2.name })), db, []) := by
  induction l with
  | nil => intro db _; rfl
  | cons hd rest ih =>
    intro db hall
    obtain ⟨n, c⟩ := hd
    have hpres : db.hasType c.name = true :=
      (hasType_iff db c.name).mpr (hall (n, c) (by simp))
    simp only [before_create_aux,
      show c.create db true = .ok (db, []) from by simp [CompositeType.create, hpres],
      show register_psycopg2_composite db c =
          .ok { c with type_cls := some c.name } from by
        simp [register_psycopg2_composite, hpres],
      ih db (fun p hp => hall p (List.mem_cons_of_mem _ hp))]
    rfl

end PgComposite

namespace PgComposite

/-- **C8**: `create` executes `CREATE TYPE` unconditionally when the
check-first flag is unset (so it would even error on a duplicate) and only
when the engine reports the type absent when the flag is set; `drop` — whose
`checkfirst` parameter defaults to `true` in the embedded signature, as in the
source — executes `DROP TYPE` exactly when checking is requested and the
engine reports the type present; consequently a second invocation of the
`before_create` hook in the same process succeeds and executes no DDL at all,
and each registered type's `CREATE TYPE` is executed at most once. -/
theorem composite_lifecycle_checkfirst :
    (∀ (self : CompositeType) (db : DB), db.hasType self.name = false →
        self.create db false =
          .ok (⟨self.name :: db.types⟩, [DDL.createType self.name]) ∧
        self.create db true =
          .ok (⟨self.name :: db.types⟩, [DDL.createType self.name])) ∧
    (∀ (self : CompositeType) (db : DB), db.hasType self.name = true →
        self.create db true = .ok (db, []) ∧
        self.create db false = .error (.duplicateType self.name)) ∧
    (∀ (self : CompositeType) (db : DB) (cf : Bool) (db' : DB) (log : List DDL),
        self.drop db cf = .ok (db', log) →
        (DDL.dropType self.name ∈ log ↔ (cf = true ∧ db.hasType self.name = true))) ∧
    (∀ reg db reg1 db1 log1, before_create reg db = .ok (reg1, db1, log1) →
        (∃ reg2, before_create reg1 db1 = .ok (reg2, db1, ([] : List DDL))) ∧
        (∀ x, log1.count (DDL.createType x) ≤ 1)) := by
  refine ⟨?_, ?_, ?_, ?_⟩
  · intro self db h
    constructor <;> simp [CompositeType.create, h, DB.exec, Except.map]
  · intro self db h
    constructor <;> simp [CompositeType.create, h, DB.exec, Except.map]
  · intro self db cf db' log h
    by_cases h1 : cf = true
    · by_cases h2 : db.hasType self.name = true
      · rw [show self.drop db cf =
              .ok (⟨db.types.filter (fun t => t ≠ self.name)⟩, [DDL.dropType self.name]) by
            simp [CompositeType.drop, h1, h2, DB.exec, Except.map]] at h
        cases h
        simp [h1, h2]
      · rw [show self.drop db cf = .ok (db, []) by
            simp [CompositeType.drop, h1]
            intro hh
            exact absurd hh h2] at h
        cases h
        simp
        intro hcf
        cases hh : db.hasType self.name
        · rfl
        · exact absurd hh h2
    · rw [show self.drop db cf = .ok (db, []) by
          simp [CompositeType.drop]
          intro hh
          exact absurd hh h1] at h
      cases h
      simp
      intro hcf
      exact absurd hcf h1
  · intro reg db reg1 db1 log1 h
    obtain ⟨h1, h2, h3, h4⟩ := before_create_aux_spec reg db reg1 db1 log1 h
    refine ⟨⟨_, before_create_aux_all_present reg1 db1 h4⟩, h3⟩

/-- Witness for C8: running the hook on a two-type registry against an empty
engine and then running it again on the resulting state executes nothing the
second time, and `money_type` was created exactly once. -/
theorem composite_lifecycle_checkfirst_witness :
    (∃ reg2, before_create
        [("money_type", ⟨"money_type", moneyType.columns, some "money_type"⟩),
         ("point_type", ⟨"point_type", pointType.columns, some "point_type"⟩)]
        ⟨["point_type", "money_type"]⟩ =
      .ok (reg2, ⟨["point_type", "money_type"]⟩, ([] : List DDL))) ∧
    ([DDL.createType "money_type", DDL.createType "point_type"].count
        (DDL.createType "money_type") ≤ 1) :=
  ⟨(composite_lifecycle_checkfirst.2.2.2 regTwo emptyDB _ _ _ rfl).1,
   (composite_lifecycle_checkfirst.2.2.2 regTwo emptyDB _ _ _ rfl).2 "money_type"⟩

end PgComposite

/-! ## JSON document compiler: claim theorems -/

namespace SqlAlchemyUtils

theorem dget_singleton {α β : Type} [DecidableEq α] {a : α} {b : β} {k : α} {v : β}
    (h : dget [(a, b)] k = some v) : k = a ∧ v = b := by
  simp only [dget] at h
  by_cases hp : a = k
  · rw [if_pos hp] at h
    cases h
    exact ⟨hp.symm, rfl⟩
  · rw [if_neg hp] at h
    cases h

end SqlAlchemyUtils

namespace JsonApi

open SqlAlchemyUtils

/-- Helper for C3: validation of the mapped entities succeeds exactly when
every one of them exposes an `id` descriptor. -/
theorem validate_models_ok_iff (ms : List Model) :
    validate_models ms = .ok () ↔
      ∀ mo ∈ ms, (dget mo.descriptors "id").isSome = true := by
  induction ms with
  | nil => simp [validate_models]
  | cons mo rest ih =>
    simp only [validate_models, get_all_descriptors]
    by_cases h : (dget mo.descriptors "id").isSome = true
    · rw [if_pos h, ih]
      constructor
      · intro hall m hm
        rcases List.mem_cons.mp hm with heq | hmem
        · subst heq; exact h
        · exact hall m hmem
      · intro hall m hm
        exact hall m (List.mem_cons_of_mem _ hm)
    · rw [if_neg h]
      constructor
      · intro hfalse
        cases hfalse
      · intro hall
        exact absurd (hall mo (by simp)) h

/-- Helper for C3: a failed validation is always an `IdPropertyNotFound`. -/
theorem validate_models_error (ms : List Model) (e : Err)
    (h : validate_models ms = .error e) :
    ∃ msg, e = .api (.IdPropertyNotFound msg) := by
  induction ms with
  | nil => simp [validate_models] at h
  | cons mo rest ih =>
    simp only [validate_models, get_all_descriptors] at h
    by_cases hid : (dget mo.descriptors "id").isSome = true
    · rw [if_pos hid] at h
      exact ih h
    · rw [if_neg hid] at h
      cases h
      exact ⟨_, rfl⟩

/-- **C3** (corrected): construction fails — and always with
`IdPropertyNotFound` — exactly when some mapped entity lacks an `id`
descriptor; and for every *injective* mapping with distinct aliases accepted
by construction (including the empty mapping, vacuously), the forward
alias-to-entity lookup and the stored inverse entity-to-alias lookup are
exact inverses.  The injectivity hypothesis is forced by the counterexample
`init_inverse_counterexample`: construction also accepts non-injective
mappings, for which the stored inverse is not an inverse. -/
theorem init_id_check_and_inverse (mapping : List (String × Model)) :
    ((∃ e, JSONMapping.init mapping = .error e) ↔
       ∃ p ∈ mapping, dget p.2.descriptors "id" = none) ∧
    (∀ e, JSONMapping.init mapping = .error e →
       ∃ msg, e = .api (.IdPropertyNotFound msg)) ∧
    ((dkeys mapping).Nodup →
     (∀ k1 k2 v, dget mapping k1 = some v → dget mapping k2 = some v → k1 = k2) →
     ∀ m, JSONMapping.init mapping = .ok m →
       ∀ k v, (dget m.mapping k = some v ↔ m.inversedGet v = some k)) := by
  have hinit : ∀ out, JSONMapping.init mapping = out ↔
      (match validate_models (mapping.map Prod.snd) with
       | .error e => out = .error e
       | .ok _ => out =
          .ok { mapping := mapping,
                inversed :=
                  if mapping.isEmpty then none
                  else some (mapping.map (fun p => (p.2, p.1))) }) := by
    intro out
    simp only [JSONMapping.init, validate_mapping]
    cases validate_models (mapping.map Prod.snd) with
    | error e => simp [Bind.bind, Except.bind]; exact comm
    | ok u => cases u; simp [Bind.bind, Except.bind]; exact comm
  refine ⟨?_, ?_, ?_⟩
  · constructor
    · rintro ⟨e, he⟩
      rw [hinit (.error e)] at he
      cases hval : validate_models (mapping.map Prod.snd) with
      | error e2 =>
        have : ¬ ∀ mo ∈ mapping.map Prod.snd, (dget mo.descriptors "id").isSome = true := by
          intro hall
          rw [← validate_models_ok_iff] at hall
          rw [hall] at hval
          cases hval
        push_neg at this
        obtain ⟨mo, hmem, hmo⟩ := this
        obtain ⟨p, hp, hpeq⟩ := List.mem_map.mp hmem
        refine ⟨p, hp, ?_⟩
        rw [hpeq]
        cases hd : dget mo.descriptors "id"
        · rfl
        · rw [hd] at hmo; simp at hmo
      | ok u =>
        rw [hval] at he
        cases he
    · rintro ⟨p, hp, hid⟩
      cases hval : validate_models (mapping.map Prod.snd) with
      | error e =>
        refine ⟨e, ?_⟩
        rw [hinit (.error e), hval]
      | ok u =>
        cases u
        rw [validate_models_ok_iff] at hval
        have := hval p.2 (List.mem_map.mpr ⟨p, hp, rfl⟩)
        rw [hid] at this
        cases this
  · intro e he
    rw [hinit (.error e)] at he
    cases hval : validate_models (mapping.map Prod.snd) with
    | error e2 =>
      rw [hval] at he
      cases he
      exact validate_models_error _ _ hval
    | ok u => rw [hval] at he; cases he
  · intro hnd hinj m hm k v
    rw [hinit (.ok m)] at hm
    cases hval : validate_models (mapping.map Prod.snd) with
    | error e2 => rw [hval] at hm; cases hm
    | ok u =>
      cases u
      rw [hval] at hm
      cases hm
      cases hemp : mapping.isEmpty with
      | true =>
        rw [List.isEmpty_iff] at hemp
        subst hemp
        simp [dget, JSONMapping.inversedGet]
      | false =>
        have hmapping : (JSONMapping.mk mapping
            (if mapping.isEmpty then none
             else some (mapping.map (fun p => (p.2, p.1))))).mapping = mapping := rfl
        simp only [hmapping, JSONMapping.inversedGet, hemp, Bool.false_eq_true,
          if_false]
        constructor
        · intro hfwd
          have hmem : (k, v) ∈ mapping := mem_of_dget_eq_some hfwd
          have hvmem : v ∈ dkeys (mapping.map (fun p => (p.2, p.1))) := by
            simp only [dkeys, List.map_map]
            exact List.mem_map.mpr ⟨(k, v), hmem, rfl⟩
          obtain ⟨k', hk'⟩ := Option.isSome_iff_exists.mp (dget_isSome_iff.mpr hvmem)
          have hswapmem : (v, k') ∈ mapping.map (fun p => (p.2, p.1)) :=
            mem_of_dget_eq_some hk'
          obtain ⟨q, hq, hqeq⟩ := List.mem_map.mp hswapmem
          have hq2 : q.2 = v := congrArg Prod.fst hqeq
          have hq1 : q.1 = k' := congrArg Prod.snd hqeq
          have hbackmem : (k', v) ∈ mapping := by
            rw [← hq1, ← hq2]
            exact hq
          have hback : dget mapping k' = some v := dget_eq_some_of_mem hnd hbackmem
          have : k = k' := hinj k k' v hfwd hback
          rw [this]
          exact hk'
        · intro hbwd
          have hswapmem : (v, k) ∈ mapping.map (fun p => (p.2, p.1)) :=
            mem_of_dget_eq_some hbwd
          obtain ⟨q, hq, hqeq⟩ := List.mem_map.mp hswapmem
          have hq2 : q.2 = v := congrArg Prod.fst hqeq
          have hq1 : q.1 = k := congrArg Prod.snd hqeq
          have : (k, v) ∈ mapping := by
            rw [← hq1, ← hq2]
            exact hq
          exact dget_eq_some_of_mem hnd this

end JsonApi

namespace JsonApi

open SqlAlchemyUtils

/-- Counterexample for C3 as stated: the non-injective mapping `dupMapping`
(two aliases naming the same entity, which has an `id`) is accepted by
construction, yet alias-to-entity followed by entity-to-alias maps `"a"` to
`"b"`: the stored maps are not exact inverses for every accepted mapping. -/
theorem init_inverse_counterexample :
    JSONMapping.init dupMapping = .ok mdup ∧
    dget mdup.mapping "a" = some sharedModel ∧
    mdup.inversedGet sharedModel = some "b" ∧
    ¬ (("b" : String) = "a") ∧
    ¬ (∀ k v, dget mdup.mapping k = some v ↔ mdup.inversedGet v = some k) := by
  refine ⟨rfl, rfl, rfl, by decide, ?_⟩
  intro hall
  have h := (hall "a" sharedModel).mp rfl
  rw [show mdup.inversedGet sharedModel = some "b" from rfl] at h
  exact absurd h (by decide)

/-- Witness for C3: a mapping with an `id`-less entity is rejected, and on
the injective singleton registry `mSingle` the forward and inverse lookups
agree at `("users", userModel)`. -/
theorem init_id_check_and_inverse_witness :
    (∃ e, JSONMapping.init [("bad", Model.mk "Bad" [])] = .error e) ∧
    (dget mSingle.mapping "users" = some userModel ↔
      mSingle.inversedGet userModel = some "users") :=
  ⟨(init_id_check_and_inverse [("bad", Model.mk "Bad" [])]).1.mpr
      ⟨("bad", Model.mk "Bad" []), by simp, rfl⟩,
   (init_id_check_and_inverse [("users", userModel)]).2.2
      (by simp)
      (fun k1 k2 v h1 h2 => ((dget_singleton h1).1.trans (dget_singleton h2).1.symm))
      mSingle rfl "users" userModel⟩

end JsonApi

namespace SqlAlchemyUtils

theorem mapM_ok_length {α β ε : Type} (f : α → Except ε β) :
    ∀ (l : List α) (out : List β), l.mapM f = .ok out → out.length = l.length := by
  intro l
  induction l with
  | nil =>
    intro out h
    have h2 : (Except.ok ([] : List β) : Except ε (List β)) = .ok out := h
    cases h2
    rfl
  | cons a rest ih =>
    intro out h
    rw [List.mapM_cons] at h
    cases hfa : f a with
    | error e => rw [hfa] at h; simp [Bind.bind, Except.bind] at h
    | ok b =>
      rw [hfa] at h
      simp only [Bind.bind, Except.bind] at h
      cases hrest : rest.mapM f with
      | error e => rw [hrest] at h; simp [Except.bind] at h
      | ok bs =>
        rw [hrest] at h
        simp only [Pure.pure, Except.pure] at h
        cases h
        simp [ih bs hrest]

end SqlAlchemyUtils

namespace JsonApi

open SqlAlchemyUtils

/-- **C4**: for a non-empty dot-delimited path, `subpaths` returns one entry
per dot-separated segment, the `i`-th being the first `i+1` segments joined
by dots; the entries strictly increase in length, each is a string prefix of
the path, and the last is the path itself; and the compound-document builder
selects exactly one `build_single_included` subquery per such prefix of every
requested include path. -/
theorem subpaths_prefix_chain (path : String) (hne : path ≠ "") :
    (subpaths path).length = (pySplit path).length ∧
    (∀ i (h : i < (subpaths path).length),
        (subpaths path).get ⟨i, h⟩ = pyJoin "." ((pySplit path).take (i + 1))) ∧
    (∀ i (h : i + 1 < (subpaths path).length),
        ((subpaths path).get ⟨i, Nat.lt_of_succ_lt h⟩).length <
          ((subpaths path).get ⟨i + 1, h⟩).length) ∧
    (∃ h : (pySplit path).length - 1 < (subpaths path).length,
        (subpaths path).get ⟨(pySplit path).length - 1, h⟩ = path) ∧
    (∀ x ∈ subpaths path, ∃ rest, x ++ rest = path) ∧
    (∀ (env : Env) (m : JSONMapping) (model : Model) (fields : Fields)
        (paths : List String) (from_obj : Model) (out : List SqlExpr),
        paths ≠ [] →
        m.build_included env model fields (some paths) from_obj = .ok out →
        ∃ selects,
          out = [s "included",
            .subquerySelect [.arrayAggEmpty (.col "included" "json_object")]
              (some (.unionOrdered selects))] ∧
          selects.length = (paths.map (fun p => (subpaths p).length)).sum) := by
  have hlen : (subpaths path).length = (pySplit path).length := by
    simp [subpaths]
  have hget : ∀ i (h : i < (subpaths path).length),
      (subpaths path).get ⟨i, h⟩ = pyJoin "." ((pySplit path).take (i + 1)) := by
    intro i h
    simp [subpaths, List.get_eq_getElem]
  have hpos : 0 < (pySplit path).length := by
    cases hs : pySplit path with
    | nil => exact absurd hs (pySplit_ne_nil path)
    | cons a l => simp
  refine ⟨hlen, hget, ?_, ?_, ?_, ?_⟩
  · intro i h
    rw [hget i (Nat.lt_of_succ_lt h), hget (i + 1) h]
    have hi1 : i + 1 < (pySplit path).length := by rw [← hlen]; exact h
    rw [show i + 1 + 1 = i + 2 from rfl, pyJoin_take_succ "." (pySplit path) i hi1]
    have hdot : (("." : String)).length = 1 := rfl
    simp [String.length_append, hdot]
    omega
  · have hfin : (pySplit path).length - 1 < (subpaths path).length := by
      rw [hlen]; omega
    refine ⟨hfin, ?_⟩
    rw [hget _ hfin]
    have : (pySplit path).length - 1 + 1 = (pySplit path).length := by omega
    rw [this, List.take_length (pySplit path), pyJoin_pySplit]
  · intro x hx
    simp only [subpaths, List.mem_map, List.mem_range] at hx
    obtain ⟨i, _, hi⟩ := hx
    rw [← hi]
    exact pyJoin_take_prefix path (i + 1)
  · intro env m model fields paths from_obj out hpne hok
    have htruthy : includeTruthy (some paths) = true := by
      cases paths with
      | nil => exact absurd rfl hpne
      | cons a l => simp [includeTruthy]
    simp only [JSONMapping.build_included, htruthy, if_true, Option.getD_some,
      Bind.bind, Except.bind] at hok
    cases hsel : ((paths.map subpaths).flatten).mapM
        (fun subpath => m.build_single_included env model fields subpath from_obj) with
    | error e => rw [hsel] at hok; cases hok
    | ok selects =>
      rw [hsel] at hok
      cases hok
      refine ⟨selects, rfl, ?_⟩
      rw [mapM_ok_length _ _ _ hsel, List.length_flatten, List.map_map]
      rfl

end JsonApi

namespace JsonApi

open SqlAlchemyUtils

/-- Witness for C4: `"a.b.c"` expands to `["a", "a.b", "a.b.c"]`, and on the
fixture graph the compound-document builder for `include={"articles"}`
selects exactly one subquery. -/
theorem subpaths_prefix_chain_witness :
    (subpaths "a.b.c").length = (pySplit "a.b.c").length ∧
    subpaths "a.b.c" = ["a", "a.b", "a.b.c"] ∧
    (∃ selects,
      [s "included",
        SqlExpr.subquerySelect [.arrayAggEmpty (.col "included" "json_object")]
          (some (.unionOrdered [SqlExpr.correlatedSelect "articles"
            (.castJsonb (.jsonBuildObject
              [s "id", .castText (.col "Article" "id"), s "type", s "articles"]))]))] =
        [s "included",
          SqlExpr.subquerySelect [.arrayAggEmpty (.col "included" "json_object")]
            (some (.unionOrdered selects))] ∧
      selects.length = ((["articles"] : List String).map
        (fun p => (subpaths p).length)).sum) :=
  ⟨(subpaths_prefix_chain "a.b.c" (by decide)).1,
   rfl,
   (subpaths_prefix_chain "a.b.c" (by decide)).2.2.2.2.2 env0 m0 userModel []
     ["articles"] userModel _ (by simp) rfl⟩

end JsonApi

namespace JsonApi

open SqlAlchemyUtils

theorem modelRel_sub (m : Model) (f : String) (r : RelationshipInfo)
    (h : (f, r) ∈ modelRelationships m) : (f, Descriptor.rel r) ∈ m.descriptors := by
  simp only [modelRelationships, List.mem_filterMap] at h
  obtain ⟨p, hp, heq⟩ := h
  cases p with
  | mk p1 p2 =>
    cases p2 with
    | attr cols => simp at heq
    | rel r2 =>
      simp at heq
      obtain ⟨h1, h2⟩ := heq
      subst h1
      subst h2
      exact hp

theorem mem_dkeys_iff {α β : Type} (l : List (α × β)) (k : α) :
    k ∈ dkeys l ↔ ∃ b, (k, b) ∈ l := by
  simp only [dkeys, List.mem_map]
  constructor
  · rintro ⟨p, hp, heq⟩
    subst heq
    exact ⟨p.2, hp⟩
  · rintro ⟨b, hb⟩
    exact ⟨(k, b), hb, rfl⟩

/-- A name with no descriptor at all is in particular not a relationship. -/
theorem rel_none_of_desc_none (m : Model) (f : String)
    (h : dget m.descriptors f = none) : dget (modelRelationships m) f = none := by
  rw [dget_eq_none_iff] at h ⊢
  intro hmem
  apply h
  obtain ⟨r, hr⟩ := (mem_dkeys_iff _ _).mp hmem
  exact (mem_dkeys_iff _ _).mpr ⟨_, modelRel_sub m f r hr⟩

/-- A name bound (uniquely) to a columnar descriptor is not a relationship. -/
theorem rel_none_of_attr (m : Model) (f : String) (cols : List ColumnInfo)
    (hnd : (dkeys m.descriptors).Nodup)
    (h : dget m.descriptors f = some (.attr cols)) :
    dget (modelRelationships m) f = none := by
  rw [dget_eq_none_iff]
  intro hmem
  obtain ⟨r, hr⟩ := (mem_dkeys_iff _ _).mp hmem
  have h1 : (f, Descriptor.rel r) ∈ m.descriptors := modelRel_sub m f r hr
  have h2 : (f, Descriptor.attr cols) ∈ m.descriptors := mem_of_dget_eq_some h
  have := dget_unique_of_nodup hnd h2 h1
  cases this

/-- Inversion of a successful `JSONMapping.init`. -/
theorem init_ok_inv (mapping : List (String × Model)) (m : JSONMapping)
    (h : JSONMapping.init mapping = .ok m) :
    m = ⟨mapping, if mapping.isEmpty then none
          else some (mapping.map (fun p => (p.2, p.1)))⟩ ∧
    validate_models (mapping.map Prod.snd) = .ok () := by
  simp only [JSONMapping.init, validate_mapping, Bind.bind, Except.bind] at h
  cases hval : validate_models (mapping.map Prod.snd) with
  | error e => rw [hval] at h; cases h
  | ok u => cases u; rw [hval] at h; cases h; exact ⟨rfl, rfl⟩

/-- Helper for C2: over a singleton registry, a field-validation error inside
`validate_fields` surfaces as the result of the whole `select` call. -/
theorem select_singleton_field_error (env : Env) (a f : String) (model : Model) (e : Err)
    (hid : (dget model.descriptors "id").isSome = true)
    (hnotrel : is_relationship_field model f = false)
    (hval : validate_fields model [f] = .error e) :
    JSONMapping.select env ⟨[(a, model)], some [(model, a)]⟩ model
      (some [(a, [f])]) none none = .error e := by
  have h1 : JSONMapping.validate_field_keys ⟨[(a, model)], some [(model, a)]⟩
      (some [(a, [f])]) = .ok () := by
    simp [JSONMapping.validate_field_keys, dkeys, dget]
  have h7 : JSONMapping.get_model_alias ⟨[(a, model)], some [(model, a)]⟩ model = .ok a := by
    simp [JSONMapping.get_model_alias, JSONMapping.validate_model,
      JSONMapping.inversedGet, dget, Bind.bind, Except.bind]
  have h3 : JSONMapping.build_resource_identifier ⟨[(a, model)], some [(model, a)]⟩
      model model = .ok [s "id", .castText (.col model.name "id"), s "type", s a] := by
    simp [JSONMapping.build_resource_identifier, h7, getattrCol, hid,
      Bind.bind, Except.bind]
  have h6 : JSONMapping.get_model_fields ⟨[(a, model)], some [(model, a)]⟩
      model [(a, [f])] model = .error e := by
    simp [JSONMapping.get_model_fields, h7, Bind.bind, Except.bind, dget,
      hnotrel, hval, Option.getD]
  have h5 : JSONMapping.build_attributes ⟨[(a, model)], some [(model, a)]⟩
      model [(a, [f])] model = .error e := by
    simp [JSONMapping.build_attributes, h6, Bind.bind, Except.bind]
  have h4 : JSONMapping.build_attrs_and_relationships env
      ⟨[(a, model)], some [(model, a)]⟩ model [(a, [f])] model = .error e := by
    simp [JSONMapping.build_attrs_and_relationships, h5, Bind.bind, Except.bind]
  have h2 : JSONMapping.build_data env ⟨[(a, model)], some [(model, a)]⟩
      model [(a, [f])] none model = .error e := by
    simp [JSONMapping.build_data, h3, h4, Bind.bind, Except.bind]
  simp [JSONMapping.select, h1, h2, Bind.bind, Except.bind, Option.getD]

/-- **C2**: on a registry built by `JSONMapping.init`, `select` raises its
validation errors at query-build time — it returns an error and never a
compiled `Query` — with a fields-map key that is no registered alias raising
`UnknownFieldKey`, a named field with no descriptor on the target selectable
raising `UnknownField`, and a named field whose (unique) underlying actual
column is a foreign-key or primary-key column raising `InvalidField`; all
three surface through the `.api` constructor, i.e. as members of the shared
`JSONAPIException` marker family. -/
theorem select_build_time_validation (env : Env) (a : String) (model : Model)
    (m : JSONMapping) (h0 : JSONMapping.init [(a, model)] = .ok m) :
    (∀ k fl, dget m.mapping k = none →
        ∃ msg, JSONMapping.select env m model (some [(k, fl)]) none none
          = .error (.api (.UnknownFieldKey msg))) ∧
    (∀ f, dget model.descriptors f = none →
        ∃ msg, JSONMapping.select env m model (some [(a, [f])]) none none
          = .error (.api (.UnknownField msg))) ∧
    (∀ f c, (dkeys model.descriptors).Nodup →
        dget model.descriptors f = some (.attr [c]) → c.isColumn = true →
        (c.foreignKeys = true ∨ c.primaryKey = true) →
        ∃ msg, JSONMapping.select env m model (some [(a, [f])]) none none
          = .error (.api (.InvalidField msg))) := by
  obtain ⟨hm, hvalm⟩ := init_ok_inv _ _ h0
  have hm' : m = ⟨[(a, model)], some [(model, a)]⟩ := by simpa using hm
  subst hm'
  have hid : (dget model.descriptors "id").isSome = true := by
    have := (validate_models_ok_iff _).mp hvalm model (by simp)
    simpa using this
  refine ⟨?_, ?_, ?_⟩
  · intro k fl hk
    refine ⟨"Unknown field keys given. Could not find " ++ k ++
      " from given model mapping.", ?_⟩
    have hv : JSONMapping.validate_field_keys ⟨[(a, model)], some [(model, a)]⟩
        (some [(k, fl)]) = .error (.api (.UnknownFieldKey
          ("Unknown field keys given. Could not find " ++ k ++
           " from given model mapping."))) := by
      simp only [JSONMapping.mapping] at hk
      simp [JSONMapping.validate_field_keys, dkeys, hk, pyJoin]
    simp [JSONMapping.select, hv, Bind.bind, Except.bind]
  · intro f hf
    have hnotrel : is_relationship_field model f = false := by
      simp [is_relationship_field, rel_none_of_desc_none model f hf]
    refine ⟨"Unknown field " ++ f ++
      ". Given selectable does not have descriptor named " ++ f ++ ".",
      select_singleton_field_error env a f model _ hid hnotrel ?_⟩
    simp [validate_fields, get_all_descriptors, hf]
  · intro f c hnd hfc hcol hfkp
    have hnotrel : is_relationship_field model f = false := by
      simp [is_relationship_field, rel_none_of_attr model f [c] hnd hfc]
    cases hfk : c.foreignKeys with
    | true =>
      refine ⟨"Field " ++ f ++ " is invalid. The underlying column " ++ c.key ++
        " has foreign key. You cant include foreign key attributes. Consider including relationship attributes.",
        select_singleton_field_error env a f model _ hid hnotrel ?_⟩
      simp [validate_fields, get_all_descriptors, hfc, get_descriptor_columns,
        validate_columns, validate_column, hcol, hfk, Bind.bind, Except.bind]
    | false =>
      have hpk : c.primaryKey = true := by
        rcases hfkp with h | h
        · rw [h] at hfk; cases hfk
        · exact h
      refine ⟨"Field " ++ f ++ " is invalid. The underlying column " ++ c.key ++
        " is primary key column.",
        select_singleton_field_error env a f model _ hid hnotrel ?_⟩
      simp [validate_fields, get_all_descriptors, hfc, get_descriptor_columns,
        validate_columns, validate_column, hcol, hfk, hpk, Bind.bind, Except.bind]

/-- Witness for C2 on the fixture registry: an unknown alias key, an unknown
field and the primary-key field `id` each raise their respective error. -/
theorem select_build_time_validation_witness :
    (∃ msg, JSONMapping.select env0 mSingle userModel (some [("bogus", [])]) none none
        = .error (.api (.UnknownFieldKey msg))) ∧
    (∃ msg, JSONMapping.select env0 mSingle userModel
        (some [("users", ["nonexistent"])]) none none
        = .error (.api (.UnknownField msg))) ∧
    (∃ msg, JSONMapping.select env0 mSingle userModel
        (some [("users", ["id"])]) none none
        = .error (.api (.InvalidField msg))) :=
  ⟨(select_build_time_validation env0 "users" userModel mSingle rfl).1 "bogus" [] rfl,
   (select_build_time_validation env0 "users" userModel mSingle rfl).2.1 "nonexistent" rfl,
   (select_build_time_validation env0 "users" userModel mSingle rfl).2.2 "id" idCol
     (by decide) rfl rfl (Or.inr rfl)⟩

end JsonApi

namespace JsonApi

open SqlAlchemyUtils

/-- **C1**: every successfully compiled `select` query is a single-row
(no row-generating `FROM` at the top level), single-column query whose one
column is `coalesce(<document subquery over the row source>,
json_build_object(*empty_args))`; over an empty row source it evaluates to
the empty-document JSON shape — `{"data": []}` with no include paths, and
`{"data": [], "included": []}` (the `included` key present as empty, not
omitted) when at least one include path was requested — and over any row
source it evaluates to a JSON object, never a database `NULL`. -/
theorem select_document_shape (env : Env) (m : JSONMapping) (model : Model)
    (fields : Option Fields) (inc : Option (List String)) (from_obj : Option Model)
    (q : Query) (h : JSONMapping.select env m model fields inc from_obj = .ok q) :
    (∀ n, (runQuery q n).length = 1 ∧ ∀ row ∈ runQuery q n, row.length = 1) ∧
    (∃ args fname,
        q.columns = [SqlExpr.coalesce
          (.subquerySelect [.jsonBuildObject args] (some (.fromModel fname)))
          (.jsonBuildObject (empty_args inc))]) ∧
    (∀ e ∈ q.columns, evalExpr 0 e = emptyDocJson inc) ∧
    (includeTruthy inc = true →
        emptyDocJson inc = .obj [("data", .arr []), ("included", .arr [])]) ∧
    (includeTruthy inc = false → emptyDocJson inc = .obj [("data", .arr [])]) ∧
    (∀ n, ∀ e ∈ q.columns, ∃ flds, evalExpr n e = Json.obj flds) := by
  simp only [JSONMapping.select, Bind.bind, Except.bind] at h
  cases hv : m.validate_field_keys fields with
  | error e => rw [hv] at h; cases h
  | ok u =>
    cases u
    rw [hv] at h
    cases hd : m.build_data env model (fields.getD []) inc (from_obj.getD model) with
    | error e => rw [hd] at h; cases h
    | ok args =>
      rw [hd] at h
      cases hi : m.build_included env model (fields.getD []) inc (from_obj.getD model) with
      | error e => rw [hi] at h; cases h
      | ok included =>
        rw [hi] at h
        cases h
        have hfallback : ∀ k,
            evalExpr k (SqlExpr.jsonBuildObject (empty_args inc)) = emptyDocJson inc := by
          intro k
          cases hinc : includeTruthy inc with
          | true =>
            simp [empty_args, hinc, evalExpr, evalList, pairup, emptyDocJson, s]
          | false =>
            simp [empty_args, hinc, evalExpr, evalList, pairup, emptyDocJson, s]
        refine ⟨?_, ⟨args ++ included, (from_obj.getD model).name, rfl⟩, ?_, ?_, ?_, ?_⟩
        · intro n
          constructor
          · rfl
          · intro row hrow
            simp only [runQuery, List.mem_singleton] at hrow
            subst hrow
            rfl
        · intro e he
          simp only [List.mem_singleton] at he
          subst he
          show evalExpr 0 (SqlExpr.coalesce _ _) = _
          rw [show evalExpr 0 (SqlExpr.coalesce
              (.subquerySelect [.jsonBuildObject (args ++ included)]
                (some (.fromModel (from_obj.getD model).name)))
              (.jsonBuildObject (empty_args inc))) =
            evalExpr 0 (SqlExpr.jsonBuildObject (empty_args inc)) from by
              simp [evalExpr]]
          exact hfallback 0
        · intro hinc
          simp [emptyDocJson, hinc]
        · intro hinc
          simp [emptyDocJson, hinc]
        · intro n e he
          simp only [List.mem_singleton] at he
          subst he
          cases n with
          | zero =>
            have heq : evalExpr 0 (SqlExpr.coalesce
                (.subquerySelect [.jsonBuildObject (args ++ included)]
                  (some (.fromModel (from_obj.getD model).name)))
                (.jsonBuildObject (empty_args inc))) =
              Json.obj (pairup (evalList 0 (empty_args inc))) := by
                simp [evalExpr]
            exact ⟨_, heq⟩
          | succ k =>
            have heq : evalExpr (k + 1) (SqlExpr.coalesce
                (.subquerySelect [.jsonBuildObject (args ++ included)]
                  (some (.fromModel (from_obj.getD model).name)))
                (.jsonBuildObject (empty_args inc))) =
              Json.obj (pairup (evalList (k + 1) (args ++ included))) := by
                simp [evalExpr, evalList]
            exact ⟨_, heq⟩

/-- Witness for C1 on the fixture query `q0 = select(userModel,
include={"articles"})`: one row, one column, the fallback carries the
`included`-bearing empty document, and the empty-source value is
`{"data": [], "included": []}`. -/
theorem select_document_shape_witness :
    (runQuery q0 5).length = 1 ∧
    (∃ args fname, q0.columns = [SqlExpr.coalesce
        (.subquerySelect [.jsonBuildObject args] (some (.fromModel fname)))
        (.jsonBuildObject (empty_args (some ["articles"])))]) ∧
    (∀ e ∈ q0.columns, evalExpr 0 e = emptyDocJson (some ["articles"])) ∧
    emptyDocJson (some ["articles"]) = .obj [("data", .arr []), ("included", .arr [])] :=
  ⟨((select_document_shape env0 m0 userModel none (some ["articles"]) none q0 rfl).1 5).1,
   (select_document_shape env0 m0 userModel none (some ["articles"]) none q0 rfl).2.1,
   (select_document_shape env0 m0 userModel none (some ["articles"]) none q0 rfl).2.2.1,
   (select_document_shape env0 m0 userModel none (some ["articles"]) none q0 rfl).2.2.2.1 rfl⟩

end JsonApi
